import Mathlib

/-!
Verification of the Mighty Hike results pipeline (`main.py`).

The development shallowly embeds the Python source: time-of-day values are
seconds-of-day naturals, `datetime` subtraction plus `.seconds` becomes
integer subtraction followed by a floor-mod by 86400, Python exceptions
become `Except` errors, and BeautifulSoup documents become small inductive
document shapes holding exactly the pieces the code reads.
-/

/-- Error taxonomy. Each constructor stands for a concrete Python exception
site in `main.py`: `InvalidLegNumber` for the `ValueError` in
`Person.get_leg_time`, `EmptyRegistry` for the `ValueError` raised by
`min([])` in the plot methods, `ParticipantNotFound` for the
`AttributeError` / `IndexError` raised while navigating the search-results
markup, `IncompleteTimingData` for row/parse failures on the detail page,
`UnexpectedKeyword` / `MissingArgument` for the `TypeError`s raised when
binding `Person(**data_dict)`, and `ExtractionFailed n` for the unified
`RuntimeError` that `generate_person_from_race_nubmer` wraps every failure
into. -/
inductive Err where
  | InvalidLegNumber
  | EmptyRegistry
  | ParticipantNotFound
  | IncompleteTimingData
  | UnexpectedKeyword
  | MissingArgument
  | ExtractionFailed (race_number : Nat)
  deriving Repr, DecidableEq

instance {ε α : Type} [DecidableEq ε] [DecidableEq α] : DecidableEq (Except ε α) := fun x y =>
  match x, y with
  | .ok a, .ok b =>
      if h : a = b then isTrue (congrArg Except.ok h)
      else isFalse (fun hh => h (Except.ok.inj hh))
  | .error a, .error b =>
      if h : a = b then isTrue (congrArg Except.error h)
      else isFalse (fun hh => h (Except.error.inj hh))
  | .ok _, .error _ => isFalse (fun hh => Except.noConfusion hh)
  | .error _, .ok _ => isFalse (fun hh => Except.noConfusion hh)

/-- The `.seconds` attribute of a Python `timedelta` whose total length is
`diff` seconds: `timedelta` is normalised so that `.seconds` is the
remainder of `diff` modulo 86400, always in `[0, 86400)` (floor division,
matching `Int.emod` with a positive modulus). -/
def timedeltaSeconds (diff : Int) : Nat :=
  (diff % 86400).toNat

/-- `(b_dt - a_dt).seconds` for two `datetime.strptime(_, "%H:%M:%S")`
values: both carry the same default date, so the difference is the
difference of the seconds-of-day, and `.seconds` wraps it into
`[0, 86400)`. This is the duration computation used by
`Person.get_leg_time` and `Person.total_time`. -/
def durSeconds (a b : Nat) : Nat :=
  timedeltaSeconds ((b : Int) - (a : Int))

/-- A `Person` after `__init__` has run: the five timestamps are stored
parsed (here: seconds of day). `first_name` is derived below rather than
stored; `main.py` stores `name.split(" ")[0]` at construction, which is
the same value. -/
structure Person where
  name : String
  race_number : Nat
  start : Nat
  pitstop_1 : Nat
  pitstop_2 : Nat
  pitstop_3 : Nat
  finish : Nat
  deriving Repr, DecidableEq

/-- `name.split(" ")[0]`: the prefix of `name` up to the first space
(the whole string when there is no space). -/
def Person.first_name (p : Person) : String :=
  (p.name.splitOn " ").headD ""

/-- `Person.get_leg_time`: `match` on the leg number, subtracting the
surrounding pair of timestamps and taking `.seconds`; any other leg number
raises `ValueError` (modelled as `Err.InvalidLegNumber`). -/
def Person.get_leg_time (p : Person) (leg_no : Int) : Except Err Nat :=
  match leg_no with
  | 1 => .ok (durSeconds p.start p.pitstop_1)
  | 2 => .ok (durSeconds p.pitstop_1 p.pitstop_2)
  | 3 => .ok (durSeconds p.pitstop_2 p.pitstop_3)
  | 4 => .ok (durSeconds p.pitstop_3 p.finish)
  | _ => .error .InvalidLegNumber

/-- `Person.total_time`: `(self.finish - self.start).seconds`. -/
def Person.total_time (p : Person) : Nat :=
  durSeconds p.start p.finish

/-- Python `"{:d}".format(n)` for a non-negative `n`. -/
def formatD (n : Nat) : String := toString n

/-- Python `"{:02d}".format(n)` for a non-negative `n`: zero-padded to
width 2. -/
def format02d (n : Nat) : String :=
  if n < 10 then "0" ++ toString n else toString n

/-- Python `"{:2d}".format(n)` for a non-negative `n`: space-padded
(right-aligned) to width 2. -/
def format2d (n : Nat) : String :=
  if n < 10 then " " ++ toString n else toString n

/-- `seconds_to_human_time` from `main.py`. -/
def seconds_to_human_time (seconds : Nat) : String :=
  let hours := seconds / 3600
  let minutes := (seconds % 3600) / 60
  let secs := seconds % 60
  if hours ≠ 0 then formatD hours ++ ":" ++ format02d minutes ++ ":" ++ format02d secs
  else if minutes ≠ 0 then format2d minutes ++ ":" ++ format02d secs
  else format2d secs ++ "s"

/-- The sort key relation of `self.people.sort(key=lambda p: p.total_time)`:
ascending total time. -/
def byTotal (a b : Person) : Prop :=
  a.total_time ≤ b.total_time

instance : DecidableRel byTotal := fun a b => Nat.decLe a.total_time b.total_time

instance : IsTotal Person byTotal := ⟨fun a b => Nat.le_total a.total_time b.total_time⟩

instance : IsTrans Person byTotal := ⟨fun _ _ _ h h2 => Nat.le_trans h h2⟩

/-- Python's `list.sort(key=lambda p: p.total_time)`: the unique stable
ascending sort by total time. Embedded as an insertion sort that inserts
each element (in input order) before the first strictly-later-keyed
element, which is stable; stability and sortedness are proved below, and
together they determine the sorted output uniquely, so this agrees with
Timsort. -/
def sortPeople (l : List Person) : List Person :=
  List.insertionSort byTotal l

/-- `People` after `__init__`: the (sorted) participant list and the
`use_first_name_in_plots` flag. The `time_formatter` matplotlib object is
rendering machinery outside the modelled core. -/
structure People where
  people : List Person
  use_first_name_in_plots : Bool
  deriving Repr, DecidableEq

/-- `People.__init__`: sorts the input by total time, then sets
`use_first_name_in_plots` to whether the number of distinct names
(`len(set(...))`, i.e. the deduplicated count) equals the number of
people. -/
def mkPeople (l : List Person) : People :=
  let sorted := sortPeople l
  { people := sorted
    use_first_name_in_plots := ((sorted.map Person.name).dedup).length == sorted.length }

/-- The name used for a participant by `plot_leg_as_bar` /
`plot_total_as_bar`: `person.first_name if self.use_first_name_in_plots
else person.name`. -/
def displayName (ppl : People) (p : Person) : String :=
  if ppl.use_first_name_in_plots then p.first_name else p.name

/-- Python's builtin `min` on a list: raises `ValueError` on an empty
sequence (modelled as `Err.EmptyRegistry`, the spec's name for that
failure), otherwise folds `min` from the first element. -/
def pyMin : List Nat → Except Err Nat
  | [] => .error .EmptyRegistry
  | x :: xs => .ok (xs.foldl min x)

/-- The registry-wide minimum query: `min(times)` where
`times = [selector(person) for person in self.people]`, as computed inside
`plot_leg_as_bar` (selector = leg time) and `plot_total_as_bar`
(selector = total time) to find the leader and the gap-to-leader deltas. -/
def best (ppl : People) (selector : Person → Nat) : Except Err Nat :=
  pyMin (ppl.people.map selector)

/-- An `<a>` element inside the search-results table: its text and its
optional `href` attribute. -/
structure Anchor where
  text : String
  href : Option String
  deriving Repr, DecidableEq

/-- The Locate stage of `generate_person_from_race_nubmer`. The document
is `none` when `find("table", id="ctl00_Content_Main_grdSearch")` returns
no table (the subsequent attribute access raises `AttributeError`), else
the list of anchors in the table. The code takes `find_all("a")[0]` for
the display name (`IndexError` when empty) and
`find_all("a", href=True)[0]["href"]` for the link (`IndexError` when no
anchor has an `href`). All these failures surface as
`ParticipantNotFound`. -/
def locate (doc : Option (List Anchor)) : Except Err (String × String) :=
  match doc with
  | none => .error .ParticipantNotFound
  | some anchors =>
    match anchors with
    | [] => .error .ParticipantNotFound
    | a :: _ =>
      match anchors.filter (fun x => x.href.isSome) with
      | [] => .error .ParticipantNotFound
      | b :: _ => .ok (a.text, b.href.getD "")

/-- Label normalisation from the parse-timings stage: `key.lower()` then
`key.replace(" ", "_")`, written character-wise (labels are ASCII, where
Python `str.lower` agrees with per-character ASCII lowering). -/
def normalizeKey (s : String) : String :=
  String.mk ((s.data.map Char.toLower).map (fun c => if c = ' ' then '_' else c))

/-- Splitting a character list on a (single-character) separator, with
Python `str.split(sep)` semantics: `n` separators yield `n + 1` pieces,
empty pieces included. -/
def splitOnChar (sep : Char) : List Char → List (List Char)
  | [] => [[]]
  | c :: cs =>
    match splitOnChar sep cs with
    | r :: rs => if c = sep then [] :: r :: rs else (c :: r) :: rs
    | [] => if c = sep then [[], []] else [[c]]

/-- One numeric field of `datetime.strptime(_, "%H:%M:%S")`: one or two
digit characters, value at most `hi`. -/
def parseField2 (cs : List Char) (hi : Nat) : Option Nat :=
  if 1 ≤ cs.length ∧ cs.length ≤ 2 ∧ cs.all Char.isDigit then
    if cs.foldl (fun acc c => acc * 10 + (c.toNat - 48)) 0 ≤ hi then
      some (cs.foldl (fun acc c => acc * 10 + (c.toNat - 48)) 0)
    else none
  else none

/-- `datetime.strptime(s, "%H:%M:%S")` reduced to the seconds-of-day it
encodes: exactly three `:`-separated 1-2 digit fields, hour at most 23,
minute and second at most 59; `none` models the `ValueError` raised on
any malformed input. -/
def parseTimeHMS (s : String) : Option Nat :=
  match splitOnChar ':' s.data with
  | [hs, ms, ss] =>
    match parseField2 hs 23, parseField2 ms 59, parseField2 ss 59 with
    | some h, some m, some sec => some (h * 3600 + m * 60 + sec)
    | _, _, _ => none
  | _ => none

/-- `strptime` as used inside `Person.__init__`, with failure routed into
the error channel (`IncompleteTimingData` — the malformed-timing-value
case of the spec taxonomy). -/
def strptimeHMS (s : String) : Except Err Nat :=
  match parseTimeHMS s with
  | some n => .ok n
  | none => .error .IncompleteTimingData

/-- The parameter names of `Person.__init__`: the only keyword arguments
`Person(**data_dict)` can bind. -/
def personParams : List String :=
  ["name", "race_number", "start", "pitstop_1", "pitstop_2", "pitstop_3", "finish", "time_format"]

/-- The parameters without a default value that are not supplied
positionally: keyword binding fails (`TypeError`) if any is absent.
(`race_number` is tracked out of band in this embedding, see
`personInit`.) -/
def requiredCallParams : List String :=
  ["name", "start", "pitstop_1", "pitstop_2", "pitstop_3", "finish"]

/-- Lookup in `data_dict`, where a later assignment to the same key
overwrites an earlier one: the last matching entry wins. -/
def dictGet (kvs : List (String × String)) (k : String) : Option String :=
  (kvs.reverse.find? (fun kv => kv.1 == k)).map (fun kv => kv.2)

/-- `k in data_dict`. -/
def dictHas (kvs : List (String × String)) (k : String) : Bool :=
  kvs.any (fun kv => kv.1 == k)

/-- `Person(**data_dict)`: keyword binding rejects any key that is not a
parameter of `Person.__init__` (`TypeError`, modelled `UnexpectedKeyword`)
and any missing required parameter (`TypeError`, modelled
`MissingArgument`); then the body parses the five time strings with
`strptime` in declaration order. `race_number` is carried out of band as
a `Nat` (in the Python dict it is the int inserted before the extracted
rows), and the `time_format` parameter is modelled only at its default
value `"%H:%M:%S"`, the only value the extractor can produce aside from a
timing row literally labelled `time format`. -/
def personInit (race_number : Nat) (kwargs : List (String × String)) : Except Err Person :=
  if kwargs.any (fun kv => !(personParams.contains kv.1)) then
    .error .UnexpectedKeyword
  else if requiredCallParams.any (fun k => !(dictHas kwargs k)) then
    .error .MissingArgument
  else do
    let st ← strptimeHMS ((dictGet kwargs "start").getD "")
    let p1 ← strptimeHMS ((dictGet kwargs "pitstop_1").getD "")
    let p2 ← strptimeHMS ((dictGet kwargs "pitstop_2").getD "")
    let p3 ← strptimeHMS ((dictGet kwargs "pitstop_3").getD "")
    let fi ← strptimeHMS ((dictGet kwargs "finish").getD "")
    .ok { name := (dictGet kwargs "name").getD "", race_number := race_number,
          start := st, pitstop_1 := p1, pitstop_2 := p2, pitstop_3 := p3, finish := fi }

/-- One data row of the detail-page timing table:
`table_row.find_all("td")[:2]` followed by `table_datas[0]` /
`table_datas[1]` — an `IndexError` (collapsed into the unified failure)
when the row has fewer than two cells, else the normalised
`(label, value)` pair. -/
def extractRow (tds : List String) : Except Err (String × String) :=
  match tds with
  | k :: v :: _ => .ok (normalizeKey k, v)
  | _ => .error .IncompleteTimingData

/-- The parse-timings stage: the document is `none` when the
`divSplitGrid` div or its inner table is missing (`AttributeError`), else
the rows of the table as lists of cell texts. The header row is dropped
(`find_all("tr")[1:]`), each remaining row becomes a normalised
`(label, value)` entry of `data_dict` (in order, after the `name` and
`race_number` entries, so a duplicated label overwrites), and
`Person(**data_dict)` is called. -/
def parseStatsPage (person_name : String) (race_number : Nat)
    (doc : Option (List (List String))) : Except Err Person :=
  match doc with
  | none => .error .ParticipantNotFound
  | some trs => do
    let kvs ← (trs.drop 1).mapM extractRow
    personInit race_number (("name", person_name) :: kvs)

/-- `generate_person_from_race_nubmer`, parameterised by the two network
fetches (search page by race number, detail page by href): the whole body
sits in one `try`, and every failure is re-raised as
`RuntimeError("Could not find relevant data for race_number ...")`,
modelled as `ExtractionFailed race_number`. -/
def generate_person_from_race_nubmer (fetchSearch : Nat → Option (List Anchor))
    (fetchStats : String → Option (List (List String))) (race_number : Nat) :
    Except Err Person :=
  match (do
    let nh ← locate (fetchSearch race_number)
    parseStatsPage nh.1 race_number (fetchStats nh.2) : Except Err Person) with
  | .ok p => .ok p
  | .error _ => .error (.ExtractionFailed race_number)

/-- The `for race_number in race_numbers` accumulation loop of
`generate_people_from_race_nubmers`: sequential, no exception handling, so
the first failing race number aborts the rest. -/
def genPeopleLoop (fetchSearch : Nat → Option (List Anchor))
    (fetchStats : String → Option (List (List String))) :
    List Nat → Except Err (List Person)
  | [] => .ok []
  | n :: ns => do
    let p ← generate_person_from_race_nubmer fetchSearch fetchStats n
    let rest ← genPeopleLoop fetchSearch fetchStats ns
    .ok (p :: rest)

/-- `generate_people_from_race_nubmers`: run the loop, then build the
`People` registry from the accumulated list. -/
def generate_people_from_race_nubmers (fetchSearch : Nat → Option (List Anchor))
    (fetchStats : String → Option (List (List String))) (race_numbers : List Nat) :
    Except Err People := do
  let people_list ← genPeopleLoop fetchSearch fetchStats race_numbers
  .ok (mkPeople people_list)

/-- Concrete search fetcher for the batch witnesses: race number 644 hits
a search-results table with no rows; every other number finds one
participant. -/
def fetchSearchW (n : Nat) : Option (List Anchor) :=
  if n = 644 then some [] else some [Anchor.mk "Ann Lee" (some "d")]

/-- Concrete detail fetcher: a header row plus the five canonical timing
rows. -/
def fetchStatsW (_ : String) : Option (List (List String)) :=
  some [["h", "h"], ["Start", "08:00:00"], ["Pitstop 1", "09:00:00"],
    ["Pitstop 2", "10:00:00"], ["Pitstop 3", "11:00:00"], ["Finish", "12:00:00"]]

/-- Concrete search fetcher for the extra-row witness. -/
def fetchSearchX (_ : Nat) : Option (List Anchor) :=
  some [Anchor.mk "Cam Orr" (some "s")]

/-- Concrete detail fetcher whose table carries a sixth data row
(`Chip Time`) on top of the five required ones. -/
def fetchStatsX (_ : String) : Option (List (List String)) :=
  some [["h", "h"], ["Start", "08:00:00"], ["Pitstop 1", "09:00:00"],
    ["Pitstop 2", "10:00:00"], ["Pitstop 3", "11:00:00"], ["Finish", "12:00:00"],
    ["Chip Time", "03:59:59"]]

/-- Unfolding of `durSeconds` into `Nat` arithmetic, for seconds-of-day
inputs. -/
theorem durSeconds_eq (a b : Nat) (ha : a < 86400) (hb : b < 86400) :
    durSeconds a b = if a ≤ b then b - a else 86400 + b - a := by
  unfold durSeconds timedeltaSeconds
  rcases le_or_lt a b with h | h
  · rw [if_pos h, Int.emod_eq_of_lt (by omega) (by omega)]
    omega
  · rw [if_neg (by omega)]
    rw [show (b : Int) - (a : Int) = ((b : Int) - (a : Int) + 86400) + 86400 * (-1) by ring]
    rw [Int.add_mul_emod_self_left, Int.emod_eq_of_lt (by omega) (by omega)]
    omega

/-- Unfolding of `seconds_to_human_time` with its locals substituted. -/
theorem seconds_to_human_time_def (s : Nat) :
    seconds_to_human_time s =
      if s / 3600 ≠ 0 then
        formatD (s / 3600) ++ ":" ++ format02d (s % 3600 / 60) ++ ":" ++ format02d (s % 60)
      else if s % 3600 / 60 ≠ 0 then
        format2d (s % 3600 / 60) ++ ":" ++ format02d (s % 60)
      else format2d (s % 60) ++ "s" := rfl

/-- C1: `Duration(a, b)` — as realized by `Person.total_time` and the leg
computations of `Person.get_leg_time` — returns `b − a` when `b ≥ a`, but
when `b < a` it does NOT fail: `timedelta.seconds` wraps the negative
difference modulo 86400, returning `86400 + b − a`. (Amended from the
claim, which asserted failure with `InvalidDuration` for `b < a`.) -/
theorem C1_amended_duration (p : Person) (hs : p.start < 86400)
    (hf : p.finish < 86400) (hp1 : p.pitstop_1 < 86400) :
    (p.start ≤ p.finish → p.total_time = p.finish - p.start) ∧
    (p.finish < p.start → p.total_time = 86400 + p.finish - p.start) ∧
    (p.start ≤ p.pitstop_1 → p.get_leg_time 1 = .ok (p.pitstop_1 - p.start)) ∧
    (p.pitstop_1 < p.start → p.get_leg_time 1 = .ok (86400 + p.pitstop_1 - p.start)) := by
  have hleg : p.get_leg_time 1 = .ok (durSeconds p.start p.pitstop_1) := rfl
  unfold Person.total_time
  rw [hleg, durSeconds_eq _ _ hs hf, durSeconds_eq _ _ hs hp1]
  refine ⟨fun h => ?_, fun h => ?_, fun h => ?_, fun h => ?_⟩
  · rw [if_pos h]
  · rw [if_neg (by omega)]
  · rw [if_pos h]
  · rw [if_neg (by omega)]

/-- Witness for C1: a participant who starts at second 100 and finishes at
second 250 has total time 150 s; one whose first pitstop time precedes the
start wraps to 86300 s instead of failing. -/
theorem C1_witness :
    (Person.mk "Ann Lee" 1 100 0 0 0 250).total_time = 150 ∧
    (Person.mk "Ann Lee" 1 100 0 0 0 250).get_leg_time 1 = .ok 86300 := by
  have h := C1_amended_duration (Person.mk "Ann Lee" 1 100 0 0 0 250)
    (by decide) (by decide) (by decide)
  exact ⟨(h.1 (by decide)).trans (by decide), (h.2.2.2 (by decide)).trans (by decide)⟩

/-- Counterexample to C1 as stated: with a finish one second BEFORE the
start, `Person.total_time` does not fail with `InvalidDuration`; it
returns the wrapped value 86399, and the leg-1 computation likewise
returns `.ok 86399`. -/
theorem C1_counterexample :
    (Person.mk "Alice Smith" 1 1 0 0 0 0).total_time = 86399 ∧
    (Person.mk "Alice Smith" 1 1 0 0 0 0).get_leg_time 1 = .ok 86399 := by
  constructor <;> decide

/-- C2 (amended): `seconds_to_human_time` produces `H:MM:SS` when
`s ≥ 3600`, `MM:SS` with a width-2 right-aligned minutes field when
`60 ≤ s < 3600`, and otherwise the seconds RIGHT-ALIGNED TO WIDTH 2
followed by `"s"` (so 0 maps to `" 0s"`, not `"0s"` as the claim said). -/
theorem C2_amended_format (s : Nat) :
    (3600 ≤ s → seconds_to_human_time s =
      formatD (s / 3600) ++ ":" ++ format02d (s % 3600 / 60) ++ ":" ++ format02d (s % 60)) ∧
    (60 ≤ s → s < 3600 → seconds_to_human_time s =
      format2d (s / 60) ++ ":" ++ format02d (s % 60)) ∧
    (s < 60 → seconds_to_human_time s = format2d s ++ "s") := by
  rw [seconds_to_human_time_def]
  refine ⟨fun h => ?_, fun h h2 => ?_, fun h => ?_⟩
  · rw [if_pos (by omega)]
  · rw [if_neg (by omega), if_pos (by omega)]
    have hm : s % 3600 = s := by omega
    rw [hm]
  · rw [if_neg (by omega), if_neg (by omega)]
    have hm : s % 60 = s := by omega
    rw [hm]

/-- Witness for C2: the amended formatting at the claim's six sample
inputs (with `0 ↦ " 0s"` in place of the claimed `"0s"`). -/
theorem C2_witness :
    seconds_to_human_time 0 = " 0s" ∧ seconds_to_human_time 59 = "59s" ∧
    seconds_to_human_time 60 = " 1:00" ∧ seconds_to_human_time 3599 = "59:59" ∧
    seconds_to_human_time 3600 = "1:00:00" ∧ seconds_to_human_time 3661 = "1:01:01" := by
  refine ⟨((C2_amended_format 0).2.2 (by decide)).trans (by decide),
    ((C2_amended_format 59).2.2 (by decide)).trans (by decide),
    ((C2_amended_format 60).2.1 (by decide) (by decide)).trans (by decide),
    ((C2_amended_format 3599).2.1 (by decide) (by decide)).trans (by decide),
    ((C2_amended_format 3600).1 (by decide)).trans (by decide),
    ((C2_amended_format 3661).1 (by decide)).trans (by decide)⟩

/-- Counterexample to C2 as stated: `seconds_to_human_time 0` is the
width-2 space-padded `" 0s"`, not the claimed plain `"0s"`. -/
theorem C2_counterexample :
    seconds_to_human_time 0 = " 0s" ∧ seconds_to_human_time 0 ≠ "0s" := by
  constructor <;> decide

/-- C3 (amended): for a participant whose five timestamps are
non-decreasing seconds-of-day, the four leg times sum exactly to the total
time. (The claim's "any five timestamps" fails: mod-86400 wrapping breaks
the telescoping sum when a later timestamp precedes an earlier one.) -/
theorem C3_amended_legs_sum (p : Person)
    (h1 : p.start ≤ p.pitstop_1) (h2 : p.pitstop_1 ≤ p.pitstop_2)
    (h3 : p.pitstop_2 ≤ p.pitstop_3) (h4 : p.pitstop_3 ≤ p.finish)
    (hf : p.finish < 86400) :
    ∃ t1 t2 t3 t4,
      p.get_leg_time 1 = .ok t1 ∧ p.get_leg_time 2 = .ok t2 ∧
      p.get_leg_time 3 = .ok t3 ∧ p.get_leg_time 4 = .ok t4 ∧
      t1 + t2 + t3 + t4 = p.total_time := by
  have b1 : p.start < 86400 := by omega
  have b2 : p.pitstop_1 < 86400 := by omega
  have b3 : p.pitstop_2 < 86400 := by omega
  have b4 : p.pitstop_3 < 86400 := by omega
  refine ⟨_, _, _, _, rfl, rfl, rfl, rfl, ?_⟩
  unfold Person.total_time
  rw [durSeconds_eq _ _ b1 b2, durSeconds_eq _ _ b2 b3, durSeconds_eq _ _ b3 b4,
    durSeconds_eq _ _ b4 hf, durSeconds_eq _ _ b1 hf,
    if_pos h1, if_pos h2, if_pos h3, if_pos h4, if_pos (by omega : p.start ≤ p.finish)]
  omega

/-- Witness for C3: a monotone participant, legs 10 + 20 + 30 + 40 = 100
seconds total. -/
theorem C3_witness :
    ∃ t1 t2 t3 t4,
      (Person.mk "Dan Poe" 4 0 10 30 60 100).get_leg_time 1 = .ok t1 ∧
      (Person.mk "Dan Poe" 4 0 10 30 60 100).get_leg_time 2 = .ok t2 ∧
      (Person.mk "Dan Poe" 4 0 10 30 60 100).get_leg_time 3 = .ok t3 ∧
      (Person.mk "Dan Poe" 4 0 10 30 60 100).get_leg_time 4 = .ok t4 ∧
      t1 + t2 + t3 + t4 = (Person.mk "Dan Poe" 4 0 10 30 60 100).total_time :=
  C3_amended_legs_sum (Person.mk "Dan Poe" 4 0 10 30 60 100)
    (by decide) (by decide) (by decide) (by decide) (by decide)

/-- Counterexample to C3 as stated: a participant with a non-monotone
timeline (start one second after every checkpoint, finish back at second
1) has leg times 86399, 0, 0, 1 summing to 86400, while the total time is
0. -/
theorem C3_counterexample :
    (Person.mk "Bob Jones" 2 1 0 0 0 1).get_leg_time 1 = .ok 86399 ∧
    (Person.mk "Bob Jones" 2 1 0 0 0 1).get_leg_time 2 = .ok 0 ∧
    (Person.mk "Bob Jones" 2 1 0 0 0 1).get_leg_time 3 = .ok 0 ∧
    (Person.mk "Bob Jones" 2 1 0 0 0 1).get_leg_time 4 = .ok 1 ∧
    (Person.mk "Bob Jones" 2 1 0 0 0 1).total_time = 0 ∧
    86399 + 0 + 0 + 1 ≠ 0 := by
  refine ⟨?_, ?_, ?_, ?_, ?_, ?_⟩ <;> decide

/-- C7: `get_leg_time` computes leg 1 from (start, pitstop_1), leg 2 from
(pitstop_1, pitstop_2), leg 3 from (pitstop_2, pitstop_3), leg 4 from
(pitstop_3, finish), and errors with `InvalidLegNumber` on every other
integer leg number. -/
theorem C7_leg_time (p : Person) (n : Int) :
    p.get_leg_time 1 = .ok (durSeconds p.start p.pitstop_1) ∧
    p.get_leg_time 2 = .ok (durSeconds p.pitstop_1 p.pitstop_2) ∧
    p.get_leg_time 3 = .ok (durSeconds p.pitstop_2 p.pitstop_3) ∧
    p.get_leg_time 4 = .ok (durSeconds p.pitstop_3 p.finish) ∧
    (n ≠ 1 → n ≠ 2 → n ≠ 3 → n ≠ 4 → p.get_leg_time n = .error .InvalidLegNumber) := by
  refine ⟨rfl, rfl, rfl, rfl, fun h1 h2 h3 h4 => ?_⟩
  unfold Person.get_leg_time
  split
  · omega
  · omega
  · omega
  · omega
  · rfl

/-- Witness for C7: leg 1 of a concrete participant is 10 s, and leg
number 5 is rejected. -/
theorem C7_witness :
    (Person.mk "Cara Day" 3 10 20 40 70 110).get_leg_time 1 = .ok 10 ∧
    (Person.mk "Cara Day" 3 10 20 40 70 110).get_leg_time 5 = .error .InvalidLegNumber := by
  have h := C7_leg_time (Person.mk "Cara Day" 3 10 20 40 70 110) 5
  exact ⟨h.1.trans (by decide),
    h.2.2.2.2 (by decide) (by decide) (by decide) (by decide)⟩

/-- Filtering on a fixed total time commutes with one ordered insertion:
the inserted person lands in front of the retained tail exactly when its
total matches, because every element it is inserted past has a strictly
smaller total. -/
theorem filter_orderedInsert_total (k : Nat) (x : Person) (l : List Person) :
    (List.orderedInsert byTotal x l).filter (fun a => a.total_time == k)
      = if x.total_time = k then x :: l.filter (fun a => a.total_time == k)
        else l.filter (fun a => a.total_time == k) := by
  induction l with
  | nil =>
    by_cases hx : x.total_time = k
    · simp [List.orderedInsert, hx]
    · simp [List.orderedInsert, hx]
  | cons y ys ih =>
    by_cases hr : byTotal x y
    · rw [List.orderedInsert, if_pos hr]
      by_cases hx : x.total_time = k
      · simp [List.filter_cons, hx]
      · simp [List.filter_cons, hx]
    · rw [List.orderedInsert, if_neg hr]
      by_cases hx : x.total_time = k
      · have hyk : (y.total_time == k) = false := by
          unfold byTotal at hr
          simp only [beq_eq_false_iff_ne, ne_eq]
          omega
        simp [List.filter_cons, ih, hx, hyk]
      · simp [List.filter_cons, ih, hx]

/-- Filtering on a fixed total time sees through the whole insertion
sort: elements of equal total keep their input order (stability). -/
theorem filter_insertionSort_total (k : Nat) (l : List Person) :
    (List.insertionSort byTotal l).filter (fun a => a.total_time == k)
      = l.filter (fun a => a.total_time == k) := by
  induction l with
  | nil => rfl
  | cons x xs ih =>
    rw [List.insertionSort, filter_orderedInsert_total, ih]
    by_cases hx : x.total_time = k
    · simp [List.filter_cons, hx]
    · simp [List.filter_cons, hx]

/-- The `people` field of a constructed registry is the sorted input. -/
theorem mkPeople_people (l : List Person) : (mkPeople l).people = sortPeople l := rfl

/-- The name flag of a constructed registry, unfolded. -/
theorem mkPeople_use (l : List Person) :
    (mkPeople l).use_first_name_in_plots
      = (((sortPeople l).map Person.name).dedup.length == (sortPeople l).length) := rfl

/-- C4: the registry built by `People.__init__` is sorted by ascending
total time (every earlier participant's total is at most every later
one's), and the sort is stable: for each total-time value, the
participants carrying it appear in exactly their input order. -/
theorem C4_registry_sorted_stable (l : List Person) :
    List.Pairwise (fun a b => a.total_time ≤ b.total_time) (mkPeople l).people ∧
    ∀ k, (mkPeople l).people.filter (fun p => p.total_time == k)
        = l.filter (fun p => p.total_time == k) := by
  constructor
  · exact List.sorted_insertionSort byTotal l
  · intro k
    exact filter_insertionSort_total k l

/-- A list's deduplicated length equals its length iff it has no
duplicates (how `len(set(names)) == len(people)` decides uniqueness). -/
theorem dedup_length_eq_iff {α : Type} [DecidableEq α] (ns : List α) :
    ns.dedup.length = ns.length ↔ ns.Nodup := by
  constructor
  · intro h
    have heq : ns.dedup = ns := (List.dedup_sublist ns).eq_of_length h
    rw [← heq]
    exact ns.nodup_dedup
  · intro h
    rw [List.dedup_eq_self.mpr h]

/-- C6: `use_first_name_in_plots` is true iff the participants' names are
pairwise distinct, and the plotted name is the first space-delimited token
of the name when the flag is set, the full name otherwise. -/
theorem C6_short_names (l : List Person) :
    ((mkPeople l).use_first_name_in_plots = true ↔ (l.map Person.name).Nodup) ∧
    ∀ p : Person,
      ((mkPeople l).use_first_name_in_plots = true →
        displayName (mkPeople l) p = (p.name.splitOn " ").headD "") ∧
      ((mkPeople l).use_first_name_in_plots = false →
        displayName (mkPeople l) p = p.name) := by
  have hperm : List.Perm ((sortPeople l).map Person.name) (l.map Person.name) :=
    (List.perm_insertionSort byTotal l).map Person.name
  constructor
  · rw [mkPeople_use, beq_iff_eq,
      show (sortPeople l).length = ((sortPeople l).map Person.name).length by
        rw [List.length_map],
      dedup_length_eq_iff]
    exact hperm.nodup_iff
  · intro p
    constructor
    · intro h
      simp [displayName, h, Person.first_name]
    · intro h
      simp [displayName, h]

/-- Witness for C6: two participants both named "Alex Smith" switch the
flag off, and each is displayed under the full name. -/
theorem C6_witness :
    (mkPeople [Person.mk "Alex Smith" 1 0 0 0 0 0,
      Person.mk "Alex Smith" 2 0 0 0 0 10]).use_first_name_in_plots = false ∧
    displayName (mkPeople [Person.mk "Alex Smith" 1 0 0 0 0 0,
      Person.mk "Alex Smith" 2 0 0 0 0 10]) (Person.mk "Alex Smith" 1 0 0 0 0 0)
      = "Alex Smith" := by
  have h := C6_short_names [Person.mk "Alex Smith" 1 0 0 0 0 0,
    Person.mk "Alex Smith" 2 0 0 0 0 10]
  have hfalse : (mkPeople [Person.mk "Alex Smith" 1 0 0 0 0 0,
      Person.mk "Alex Smith" 2 0 0 0 0 10]).use_first_name_in_plots = false := by decide
  exact ⟨hfalse, (h.2 (Person.mk "Alex Smith" 1 0 0 0 0 0)).2 hfalse⟩

/-- A left fold of `min` never exceeds its starting value. -/
theorem foldl_min_le_init (xs : List Nat) (a : Nat) : xs.foldl min a ≤ a := by
  induction xs generalizing a with
  | nil => exact Nat.le_refl a
  | cons y ys ih => exact Nat.le_trans (ih (min a y)) (Nat.min_le_left a y)

/-- A left fold of `min` is at most every list element. -/
theorem foldl_min_le_mem (xs : List Nat) (x : Nat) (hx : x ∈ xs) :
    ∀ a, xs.foldl min a ≤ x := by
  induction xs with
  | nil => cases hx
  | cons y ys ih =>
    intro a
    rw [List.foldl_cons]
    rcases List.mem_cons.mp hx with h | h
    · subst h
      exact Nat.le_trans (foldl_min_le_init ys _) (Nat.min_le_right a _)
    · exact ih h (min a y)

/-- A left fold of `min` is the starting value or a list element. -/
theorem foldl_min_mem (xs : List Nat) (a : Nat) :
    xs.foldl min a = a ∨ xs.foldl min a ∈ xs := by
  induction xs generalizing a with
  | nil => exact Or.inl rfl
  | cons y ys ih =>
    rw [List.foldl_cons]
    rcases ih (min a y) with h | h
    · rcases Nat.le_total a y with hle | hle
      · exact Or.inl (h.trans (Nat.min_eq_left hle))
      · exact Or.inr (by rw [h, Nat.min_eq_right hle]; exact List.mem_cons_self y ys)
    · exact Or.inr (List.mem_cons_of_mem y h)

/-- C8: the registry-wide minimum query (`min` over the selected times,
as both plot methods compute it) fails with `EmptyRegistry` on an empty
registry, and on a non-empty registry returns the minimum selected value:
a value attained by some participant and at most every participant's. -/
theorem C8_best_min (ppl : People) (selector : Person → Nat) :
    (ppl.people = [] → best ppl selector = .error .EmptyRegistry) ∧
    (ppl.people ≠ [] → ∃ m, best ppl selector = .ok m ∧
      (∀ p ∈ ppl.people, m ≤ selector p) ∧ ∃ p ∈ ppl.people, selector p = m) := by
  constructor
  · intro h
    unfold best
    rw [h]
    rfl
  · intro h
    obtain ⟨x, xs, hx⟩ := List.exists_cons_of_ne_nil h
    unfold best
    rw [hx, List.map_cons]
    refine ⟨(List.map selector xs).foldl min (selector x), rfl, fun p hp => ?_, ?_⟩
    · rcases List.mem_cons.mp hp with heq | hmem
      · subst heq
        exact foldl_min_le_init _ _
      · exact foldl_min_le_mem _ _ (List.mem_map_of_mem selector hmem) _
    · rcases foldl_min_mem (List.map selector xs) (selector x) with hm | hm
      · exact ⟨x, List.mem_cons_self x xs, hm.symm⟩
      · obtain ⟨p, hpmem, hpe⟩ := List.mem_map.mp hm
        exact ⟨p, List.mem_cons_of_mem x hpmem, hpe⟩

/-- Witness for C8: the empty registry errors, and a two-person registry
yields a minimum with the stated properties. -/
theorem C8_witness :
    best (mkPeople []) Person.total_time = .error .EmptyRegistry ∧
    ∃ m, best (mkPeople [Person.mk "Eve Fox" 1 0 0 0 0 50,
        Person.mk "Gus Hale" 2 0 0 0 0 30]) Person.total_time = .ok m ∧
      (∀ p ∈ (mkPeople [Person.mk "Eve Fox" 1 0 0 0 0 50,
        Person.mk "Gus Hale" 2 0 0 0 0 30]).people, m ≤ p.total_time) ∧
      ∃ p ∈ (mkPeople [Person.mk "Eve Fox" 1 0 0 0 0 50,
        Person.mk "Gus Hale" 2 0 0 0 0 30]).people, p.total_time = m :=
  ⟨(C8_best_min (mkPeople []) Person.total_time).1 (by decide),
   (C8_best_min (mkPeople [Person.mk "Eve Fox" 1 0 0 0 0 50,
     Person.mk "Gus Hale" 2 0 0 0 0 30]) Person.total_time).2 (by decide)⟩

/-- `generate_person_from_race_nubmer` either succeeds or fails with
exactly `ExtractionFailed` at its own race number: the `except` clause
collapses every internal failure into that one error. -/
theorem gen_person_cases (fS : Nat → Option (List Anchor))
    (fT : String → Option (List (List String))) (n : Nat) :
    (∃ q, generate_person_from_race_nubmer fS fT n = .ok q) ∨
    generate_person_from_race_nubmer fS fT n = .error (.ExtractionFailed n) := by
  unfold generate_person_from_race_nubmer
  split
  · exact Or.inl ⟨_, rfl⟩
  · exact Or.inr rfl

/-- If every race number before `n` extracts successfully and `n` fails,
the accumulation loop stops at `n`'s failure. -/
theorem genPeopleLoop_fail (fS : Nat → Option (List Anchor))
    (fT : String → Option (List (List String))) (post : List Nat) (n : Nat) :
    ∀ pre : List Nat,
      (∀ m ∈ pre, ∃ q, generate_person_from_race_nubmer fS fT m = .ok q) →
      generate_person_from_race_nubmer fS fT n = .error (.ExtractionFailed n) →
      genPeopleLoop fS fT (pre ++ n :: post) = .error (.ExtractionFailed n) := by
  intro pre
  induction pre with
  | nil =>
    intro _ hn
    show genPeopleLoop fS fT (n :: post) = _
    unfold genPeopleLoop
    rw [hn]
    rfl
  | cons m pre ih =>
    intro hpre hn
    obtain ⟨q, hq⟩ := hpre m (List.mem_cons_self m pre)
    show genPeopleLoop fS fT (m :: (pre ++ n :: post)) = _
    unfold genPeopleLoop
    rw [hq, ih (fun m2 hm2 => hpre m2 (List.mem_cons_of_mem m hm2)) hn]
    rfl

/-- If the accumulation loop succeeds, every race number in the batch
extracted successfully. -/
theorem genPeopleLoop_ok (fS : Nat → Option (List Anchor))
    (fT : String → Option (List (List String))) :
    ∀ (ns : List Nat) (lst : List Person),
      genPeopleLoop fS fT ns = .ok lst →
      ∀ m ∈ ns, ∃ q, generate_person_from_race_nubmer fS fT m = .ok q := by
  intro ns
  induction ns with
  | nil =>
    intro lst _ m hm
    cases hm
  | cons n ns ih =>
    intro lst hok m hm
    cases hg : generate_person_from_race_nubmer fS fT n with
    | error e =>
      unfold genPeopleLoop at hok
      rw [hg] at hok
      exact Except.noConfusion hok
    | ok q =>
      rcases List.mem_cons.mp hm with heq | hmem
      · subst heq
        exact ⟨q, hg⟩
      · unfold genPeopleLoop at hok
        rw [hg] at hok
        cases hrest : genPeopleLoop fS fT ns with
        | error e =>
          rw [hrest] at hok
          exact Except.noConfusion hok
        | ok rest => exact ih rest hrest m hmem

/-- C5: the batch resolver fails fast. If any race number in the batch
fails to extract (all earlier ones succeeding), the whole batch returns
exactly that race number's `ExtractionFailed` error and no registry; and
a registry is returned only when every race number extracted
successfully. -/
theorem C5_batch_fail_fast (fS : Nat → Option (List Anchor))
    (fT : String → Option (List (List String))) :
    (∀ (pre post : List Nat) (n : Nat),
      (∀ m ∈ pre, ∃ q, generate_person_from_race_nubmer fS fT m = .ok q) →
      (∃ e, generate_person_from_race_nubmer fS fT n = .error e) →
      generate_people_from_race_nubmers fS fT (pre ++ n :: post)
        = .error (.ExtractionFailed n)) ∧
    (∀ (ns : List Nat) (reg : People),
      generate_people_from_race_nubmers fS fT ns = .ok reg →
      ∀ m ∈ ns, ∃ q, generate_person_from_race_nubmer fS fT m = .ok q) := by
  constructor
  · intro pre post n hpre hex
    obtain ⟨e, he⟩ := hex
    have hEF : generate_person_from_race_nubmer fS fT n = .error (.ExtractionFailed n) := by
      rcases gen_person_cases fS fT n with ⟨q, hq⟩ | h
      · rw [hq] at he
        exact Except.noConfusion he
      · exact h
    unfold generate_people_from_race_nubmers
    rw [genPeopleLoop_fail fS fT post n pre hpre hEF]
    rfl
  · intro ns reg hok m hm
    unfold generate_people_from_race_nubmers at hok
    cases hloop : genPeopleLoop fS fT ns with
    | error e =>
      rw [hloop] at hok
      exact Except.noConfusion hok
    | ok lst => exact genPeopleLoop_ok fS fT ns lst hloop m hm

/-- Witness for C5: race number 643 extracts, 644 hits an empty search
table, and the two-number batch aborts with `ExtractionFailed 644`. -/
theorem C5_witness :
    generate_people_from_race_nubmers fetchSearchW fetchStatsW [643, 644]
      = .error (.ExtractionFailed 644) :=
  (C5_batch_fail_fast fetchSearchW fetchStatsW).1 [643] [] 644
    (by
      intro m hm
      have hm643 : m = 643 := by
        rcases List.mem_cons.mp hm with h | h
        · exact h
        · cases h
      subst hm643
      exact ⟨Person.mk "Ann Lee" 643 28800 32400 36000 39600 43200, by decide⟩)
    ⟨Err.ExtractionFailed 644, by decide⟩

/-- Unfolding of `locate` on a document with at least one anchor. -/
theorem locate_cons (a : Anchor) (rest : List Anchor) :
    locate (some (a :: rest)) =
      match (a :: rest).filter (fun x => x.href.isSome) with
      | [] => .error .ParticipantNotFound
      | b :: _ => .ok (a.text, b.href.getD "") := rfl

/-- C9 (amended): the Locate stage fails with `ParticipantNotFound` when
the search-results table is absent or it contains no matching row, and
when one OR MORE rows match it succeeds with the FIRST row's name and
link — it does not fail on an ambiguous multi-row match as the claim
stated. -/
theorem C9_amended_locate (doc : Option (List Anchor)) :
    (doc = none → locate doc = .error .ParticipantNotFound) ∧
    (doc = some [] → locate doc = .error .ParticipantNotFound) ∧
    (∀ (a : Anchor) (rest : List Anchor) (h : String),
      doc = some (a :: rest) → a.href = some h → locate doc = .ok (a.text, h)) := by
  refine ⟨fun h => by rw [h]; rfl, fun h => by rw [h]; rfl,
    fun a rest h hdoc hhref => ?_⟩
  rw [hdoc, locate_cons, List.filter_cons_of_pos (by rw [hhref]; rfl)]
  show Except.ok (a.text, a.href.getD "") = Except.ok (a.text, h)
  rw [hhref]
  rfl

/-- Witness for C9: the three amended behaviours at concrete documents. -/
theorem C9_witness :
    locate none = .error .ParticipantNotFound ∧
    locate (some []) = .error .ParticipantNotFound ∧
    locate (some [Anchor.mk "Bob Carr" (some "pb")]) = .ok ("Bob Carr", "pb") :=
  ⟨(C9_amended_locate none).1 rfl,
   (C9_amended_locate (some [])).2.1 rfl,
   (C9_amended_locate (some [Anchor.mk "Bob Carr" (some "pb")])).2.2
     (Anchor.mk "Bob Carr" (some "pb")) [] "pb" rfl rfl⟩

/-- Counterexample to C9 as stated: a search document with TWO matching
rows (an ambiguous match) does not fail — `find_all("a")[0]` silently
picks the first row. -/
theorem C9_counterexample :
    locate (some [Anchor.mk "Alice A" (some "pageA"), Anchor.mk "Alice B" (some "pageB")])
        = .ok ("Alice A", "pageA") ∧
    locate (some [Anchor.mk "Alice A" (some "pageA"), Anchor.mk "Alice B" (some "pageB")])
        ≠ .error .ParticipantNotFound := by
  constructor <;> decide

/-- With a located participant, the extractor's result is decided by the
parse-timings stage, every parse failure collapsing into
`ExtractionFailed`. -/
theorem gen_person_eq (fS : Nat → Option (List Anchor))
    (fT : String → Option (List (List String))) (n : Nat) (nm href : String)
    (hloc : locate (fS n) = .ok (nm, href)) :
    generate_person_from_race_nubmer fS fT n =
      match parseStatsPage nm n (fT href) with
      | .ok p => .ok p
      | .error _ => .error (.ExtractionFailed n) := by
  unfold generate_person_from_race_nubmer
  rw [hloc]
  rfl

/-- Unfolding of `parseStatsPage` on a present table. -/
theorem parseStatsPage_some (nm : String) (n : Nat) (trs : List (List String)) :
    parseStatsPage nm n (some trs) =
      Except.bind ((trs.drop 1).mapM extractRow)
        (fun kvs => personInit n (("name", nm) :: kvs)) := rfl

/-- C10: a detail page whose timing table holds, besides the five
required rows, any data row whose normalised label is not a parameter of
`Person.__init__` makes extraction fail with the unified per-race-number
error, because every extracted `(label, value)` pair is forwarded to the
constructor, whose keyword binding rejects the unknown name. -/
theorem C10_unexpected_field (fS : Nat → Option (List Anchor))
    (fT : String → Option (List (List String))) (n : Nat) (nm href : String)
    (trs : List (List String)) (kvs : List (String × String))
    (hloc : locate (fS n) = .ok (nm, href))
    (hdoc : fT href = some trs)
    (hrows : (trs.drop 1).mapM extractRow = (.ok kvs : Except Err (List (String × String))))
    (hfive : ∀ k ∈ requiredCallParams, dictHas (("name", nm) :: kvs) k = true)
    (hbad : ∃ kv ∈ kvs, personParams.contains kv.1 = false) :
    generate_person_from_race_nubmer fS fT n = .error (.ExtractionFailed n) := by
  have hinit : personInit n (("name", nm) :: kvs) = .error .UnexpectedKeyword := by
    obtain ⟨kv, hkv, hc⟩ := hbad
    have hany : (("name", nm) :: kvs).any (fun kv => !(personParams.contains kv.1)) = true := by
      rw [List.any_eq_true]
      exact ⟨kv, List.mem_cons_of_mem _ hkv, by rw [hc]; rfl⟩
    unfold personInit
    rw [if_pos hany]
  have hparse : parseStatsPage nm n (fT href) = .error .UnexpectedKeyword := by
    rw [hdoc, parseStatsPage_some, hrows]
    exact hinit
  rw [gen_person_eq fS fT n nm href hloc, hparse]

/-- Witness for C10: a table carrying the five required rows plus a
`Chip Time` row (normalised `chip_time`, not a constructor parameter)
fails the extraction of race number 7. -/
theorem C10_witness :
    generate_person_from_race_nubmer fetchSearchX fetchStatsX 7
      = .error (.ExtractionFailed 7) :=
  C10_unexpected_field fetchSearchX fetchStatsX 7 "Cam Orr" "s"
    [["h", "h"], ["Start", "08:00:00"], ["Pitstop 1", "09:00:00"],
      ["Pitstop 2", "10:00:00"], ["Pitstop 3", "11:00:00"], ["Finish", "12:00:00"],
      ["Chip Time", "03:59:59"]]
    [("start", "08:00:00"), ("pitstop_1", "09:00:00"), ("pitstop_2", "10:00:00"),
      ("pitstop_3", "11:00:00"), ("finish", "12:00:00"), ("chip_time", "03:59:59")]
    (by decide) rfl (by decide) (by decide)
    ⟨("chip_time", "03:59:59"), by decide, by decide⟩
